import Mathlib

/-!
Shallow embedding of the 2D source-panel aerodynamic solver implemented in
`scripts/5_plots.py` (class `PanelMethodAirfoil`): geometry resampling and
panel building (`create_panels`, lines 35-60), influence-matrix assembly,
linear solve and surface evaluation (`solve_flow`, lines 62-92), and
off-body field evaluation (`compute_flow_field`, lines 94-121).

Floating-point arithmetic is modelled over the reals.  `numpy.arctan2` is
modelled by an explicit quadrant case split, `scipy.linalg.solve` by the
exact-singularity test together with the matrix inverse, and the cubic
interpolant fitted by `scipy.interpolate.interp1d` is an explicit parameter
of `create_panels` (theorems state which of its values they depend on).
-/

noncomputable section

namespace PanelMethodAirfoil

/-- Real model of `numpy.arctan2 y x`: quadrant-aware arctangent, with
`arctan2 0 0 = 0` exactly as numpy defines it. -/
def arctan2 (y x : ℝ) : ℝ :=
  if 0 < x then Real.arctan (y / x)
  else if x < 0 then
    (if 0 ≤ y then Real.arctan (y / x) + Real.pi else Real.arctan (y / x) - Real.pi)
  else
    (if 0 < y then Real.pi / 2 else if y < 0 then -(Real.pi / 2) else 0)

/-- A straight surface panel, as the dict built by `create_panels`
(lines 55-59): endpoints, control (mid) point, Euclidean length,
inclination `theta = atan2 (y2-y1) (x2-x1)` and outward-normal angle
`beta = theta + pi/2`. -/
structure Panel where
  x1 : ℝ
  y1 : ℝ
  x2 : ℝ
  y2 : ℝ
  xc : ℝ
  yc : ℝ
  length : ℝ
  theta : ℝ
  beta : ℝ

/-- Build one panel from its endpoints (lines 52-58). -/
def mkPanel (x1 y1 x2 y2 : ℝ) : Panel :=
  ⟨x1, y1, x2, y2, (x1 + x2) / 2, (y1 + y2) / 2,
    Real.sqrt ((x2 - x1) ^ 2 + (y2 - y1) ^ 2),
    arctan2 (y2 - y1) (x2 - x1),
    arctan2 (y2 - y1) (x2 - x1) + Real.pi / 2⟩

/-- Fallback panel for out-of-range list access (never reached on the
in-range accesses the code performs). -/
def panelDefault : Panel := mkPanel 0 0 0 0

/-- The panel-building loop of `create_panels` (lines 50-59): one panel per
consecutive pair of resampled points, with no length check of any kind. -/
def buildPanels (xp yp : List ℝ) (n : ℕ) : List Panel :=
  (List.range n).map fun i =>
    mkPanel (xp.getD i 0) (yp.getD i 0) (xp.getD (i + 1) 0) (yp.getD (i + 1) 0)

/-- Model of `numpy.isclose` with its default tolerances `rtol = 1e-5`, `atol = 1e-8`. -/
def isclose (a b : ℝ) : Prop := |a - b| ≤ 1e-8 + 1e-5 * |b|

instance (a b : ℝ) : Decidable (isclose a b) := by unfold isclose; infer_instance

/-- Contour closure of lines 36-38: append the first point unless the first
and last points are already `isclose` in both coordinates. -/
def closeContour (xs ys : List ℝ) : List ℝ × List ℝ :=
  if isclose (xs.getD 0 0) (xs.getLastD 0) ∧ isclose (ys.getD 0 0) (ys.getLastD 0)
  then (xs, ys)
  else (xs ++ [xs.getD 0 0], ys ++ [ys.getD 0 0])

/-- Consecutive-point Euclidean distances (line 40). -/
def dists (xs ys : List ℝ) : List ℝ :=
  (List.range (xs.length - 1)).map fun i =>
    Real.sqrt ((xs.getD (i + 1) 0 - xs.getD i 0) ^ 2 + (ys.getD (i + 1) 0 - ys.getD i 0) ^ 2)

/-- Model of `numpy.cumsum`. -/
def cumsum (l : List ℝ) : List ℝ :=
  (List.range l.length).map fun i => (l.take (i + 1)).sum

/-- Normalized cumulative arc-length parameter `t_original` (lines 41-42). -/
def tParam (xs ys : List ℝ) : List ℝ :=
  let t0 : List ℝ := 0 :: cumsum (dists xs ys)
  t0.map fun a => a / t0.getLastD 0

/-- Model of `numpy.linspace a b n`, element `k` (for `n = 1` numpy returns `[a]`,
matched here by `k / 0 = 0`). -/
def linspace (a b : ℝ) (n k : ℕ) : ℝ := a + (b - a) * k / ((n - 1 : ℕ) : ℝ)

/-- The cosine-spaced resampling parameters of line 47:
`0.5 * (1 - cos (linspace 0 pi (N+1)))`. -/
def cosineParams (n : ℕ) : List ℝ :=
  (List.range (n + 1)).map fun k => 0.5 * (1 - Real.cos (linspace 0 Real.pi (n + 1) k))

/-- The resampling step of line 48: the interpolant fitted on knots `t`
with data values `vs`, evaluated at every cosine parameter. -/
def resample (interp : List ℝ → List ℝ → ℝ → ℝ) (t vs : List ℝ) (n : ℕ) : List ℝ :=
  (cosineParams n).map (interp t vs)

/-- Python exceptions relevant to the geometry pipeline.  `valueError` is
the untyped builtin exception scipy raises; the remaining constructors are
the typed taxonomy named by the specification, which no code in the
repository defines or raises. -/
inductive PyExc
  | valueError
  | geometryError
  | degeneratePanelError
  | singularSystemError
deriving DecidableEq

/-- Embedding of `create_panels` (lines 35-60), parametric in the cubic interpolant
`interp` (knots, data values, evaluation point).  The only failure this
code path can produce is scipy's untyped `ValueError`, raised by
`interp1d(..., kind='cubic')` when the closed contour has fewer than 4
points; `create_panels` itself performs no validation. -/
def create_panels (interp : List ℝ → List ℝ → ℝ → ℝ) (numPanels : ℕ)
    (xs ys : List ℝ) : Except PyExc (List Panel) :=
  let xy := closeContour xs ys
  let t := tParam xy.1 xy.2
  if xy.1.length < 4 then Except.error PyExc.valueError
  else Except.ok (buildPanels (resample interp t xy.1 numPanels)
                              (resample interp t xy.2 numPanels) numPanels)

/-- A concrete interpolant agreeing with every value-preserving interpolant
at the endpoint parameters (the knot lists built by `tParam` start at 0 and
end at 1): at `t ≤ 0` it returns the first data value, at `t ≥ 1` the last.
Used to instantiate theorems at concrete inputs; every instantiated fact
depends only on these two boundary values, on which any interpolant through
the data agrees. -/
def boundaryInterp (ts vs : List ℝ) (t : ℝ) : ℝ :=
  if t ≤ 0 then vs.getD 0 0 else if 1 ≤ t then vs.getLastD 0 else ts.sum * 0 + vs.getD 0 0

/-- Model of `numpy.radians` (line 63). -/
def radians (d : ℝ) : ℝ := d * Real.pi / 180

/-- The local `X` of line 76: panel `pa`'s control point expressed in panel
`pb`'s local frame (abscissa along `pb`). -/
def xiLoc (pa pb : Panel) : ℝ :=
  (pa.xc - pb.x1) * Real.cos pb.theta + (pa.yc - pb.y1) * Real.sin pb.theta

/-- The local `Y` of line 77 (offset normal to `pb`). -/
def etaLoc (pa pb : Panel) : ℝ :=
  -(pa.xc - pb.x1) * Real.sin pb.theta + (pa.yc - pb.y1) * Real.cos pb.theta

/-- The off-diagonal influence entry of `solve_flow` (lines 76-81): the
closed-form log/arctangent terms with the `1e-12` epsilon guard
(`r1_sq = X^2 + Y^2`, `r2_sq = (X - L)^2 + Y^2`,
`phi1 = atan2 Y X`, `phi2 = atan2 Y (X - L)`,
`vn = ((X-L) log(r2_sq + 1e-12) - X log(r1_sq + 1e-12) + 2 Y (phi2 - phi1)) / (4 pi)`),
divided by panel `pb`'s length. -/
def offDiag (pa pb : Panel) : ℝ :=
  ((xiLoc pa pb - pb.length) * Real.log ((xiLoc pa pb - pb.length) ^ 2 + etaLoc pa pb ^ 2 + 1e-12)
    - xiLoc pa pb * Real.log (xiLoc pa pb ^ 2 + etaLoc pa pb ^ 2 + 1e-12)
    + 2 * etaLoc pa pb * (arctan2 (etaLoc pa pb) (xiLoc pa pb - pb.length)
        - arctan2 (etaLoc pa pb) (xiLoc pa pb))) / (4 * Real.pi) / pb.length

/-- The assembled matrix `A` of `solve_flow` (lines 71-81): `0.5` on the
diagonal by the explicit `i == j` special case, `offDiag` elsewhere. -/
def influenceMatrix (panels : List Panel) :
    Matrix (Fin panels.length) (Fin panels.length) ℝ :=
  Matrix.of fun i j => if i = j then 0.5 else offDiag (panels.get i) (panels.get j)

/-- The right-hand side `b` of `solve_flow` (line 69). -/
def rhs (panels : List Panel) (alpha vInf : ℝ) : Fin panels.length → ℝ :=
  fun i => -vInf * (Real.cos alpha * Real.cos (panels.get i).beta
                    + Real.sin alpha * Real.sin (panels.get i).beta)

/-- Real model of `scipy.linalg.solve` as called on line 83: on an exactly
singular matrix LAPACK reports failure and scipy raises `LinAlgError`
(caught by the bare `except`, yielding `none`); otherwise the unique
solution of `A x = b` is returned. -/
def linalgSolve {n : ℕ} (a : Matrix (Fin n) (Fin n) ℝ) (b : Fin n → ℝ) :
    Option (Fin n → ℝ) :=
  if a.det = 0 then none else some (a⁻¹.mulVec b)

/-- Tangential freestream component at a panel (line 88):
`V_inf * (cos(alpha) * -sin(beta) + sin(alpha) * cos(beta))`, the
projection of the freestream onto the tangent direction
`(-sin beta, cos beta)`. -/
def vtInfPanel (p : Panel) (alpha vInf : ℝ) : ℝ :=
  vInf * (Real.cos alpha * -Real.sin p.beta + Real.sin alpha * Real.cos p.beta)

/-- The dict returned by `solve_flow` (line 92): source strengths, surface
pressure coefficients, and the panel list, in panel order.  The internal
`V_t` array is not part of the returned dict. -/
structure SolveResult where
  sigma : List ℝ
  Cp : List ℝ
  panels : List Panel

/-- Embedding of `solve_flow` (lines 62-92): assemble `A` and `b`, solve for the source
strengths, then per panel `V_t[i] = vt_inf + sigma[i]/2` and
`Cp[i] = 1 - (V_t[i]/V_inf)^2`; `None` is returned when the linear solve
raises (`except: return None`, line 84). -/
def solve_flow (panels : List Panel) (alphaDeg vInf : ℝ) : Option SolveResult :=
  (linalgSolve (influenceMatrix panels) (rhs panels (radians alphaDeg) vInf)).map
    fun sigma =>
      ⟨List.ofFn sigma,
       List.ofFn (fun i =>
         1 - ((vtInfPanel (panels.get i) (radians alphaDeg) vInf + sigma i / 2) / vInf) ^ 2),
       panels⟩

/-- Hardcoded field-grid abscissae `x = linspace(-0.5, 1.5, res)` (line 99);
`X[i][j] = x[j]` after `meshgrid`. -/
def gridX (res j : ℕ) : ℝ := linspace (-0.5) 1.5 res j

/-- Hardcoded field-grid ordinates `y = linspace(-0.6, 0.6, res)` (line 100);
`Y[i][j] = y[i]` after `meshgrid`. -/
def gridY (res i : ℕ) : ℝ := linspace (-0.6) 0.6 res i

/-- Field-point coordinates in a panel's local frame (lines 107-109). -/
def xLoc (p : Panel) (px py : ℝ) : ℝ :=
  (px - p.x1) * Real.cos p.theta + (py - p.y1) * Real.sin p.theta

/-- Field-point normal offset in a panel's local frame (line 109). -/
def yLoc (p : Panel) (px py : ℝ) : ℝ :=
  -(px - p.x1) * Real.sin p.theta + (py - p.y1) * Real.cos p.theta

/-- Squared distance to the panel start (line 110). -/
def r1sqF (p : Panel) (px py : ℝ) : ℝ := xLoc p px py ^ 2 + yLoc p px py ^ 2

/-- Squared distance to the panel end (line 110). -/
def r2sqF (p : Panel) (px py : ℝ) : ℝ := (xLoc p px py - p.length) ^ 2 + yLoc p px py ^ 2

/-- The source-panel log term `J` (line 112), with the `1e-10` epsilon
added inside both squared-distance logarithms. -/
def jTerm (p : Panel) (px py : ℝ) : ℝ :=
  0.5 * Real.log ((r2sqF p px py + 1e-10) / (r1sqF p px py + 1e-10))

/-- The source-panel angle term `I = theta2 - theta1` (lines 111, 113). -/
def iTerm (p : Panel) (px py : ℝ) : ℝ :=
  arctan2 (yLoc p px py) (xLoc p px py - p.length) - arctan2 (yLoc p px py) (xLoc p px py)

/-- Induced x-velocity of one panel at a field point (line 115). -/
def uLoc (p : Panel) (s px py : ℝ) : ℝ :=
  (jTerm p px py * Real.cos p.theta - iTerm p px py * Real.sin p.theta) * s / (2 * Real.pi)

/-- Induced y-velocity of one panel at a field point (line 116). -/
def vLoc (p : Panel) (s px py : ℝ) : ℝ :=
  (jTerm p px py * Real.sin p.theta + iTerm p px py * Real.cos p.theta) * s / (2 * Real.pi)

/-- The dict returned by `compute_flow_field` (line 121), with each 2D
array modelled as a function of the row and column indices. -/
structure FlowField where
  X : ℕ → ℕ → ℝ
  Y : ℕ → ℕ → ℝ
  U : ℕ → ℕ → ℝ
  V : ℕ → ℕ → ℝ
  vMag : ℕ → ℕ → ℝ
  Cp : ℕ → ℕ → ℝ

/-- Embedding of `compute_flow_field` (lines 94-121).  The grid bounds are hardcoded to
`x ∈ [-0.5, 1.5]`, `y ∈ [-0.6, 0.6]` and only the resolution `res` is a
parameter; the freestream term has unit speed `(cos alpha, sin alpha)`,
and `Cp = 1 - V_mag^2` with no division by a freestream speed. -/
def compute_flow_field (result : SolveResult) (alphaDeg : ℝ) (res : ℕ) : FlowField :=
  let alpha := radians alphaDeg
  let u : ℕ → ℕ → ℝ := fun i j =>
    Real.cos alpha + ∑ k ∈ Finset.range result.panels.length,
      uLoc (result.panels.getD k panelDefault) (result.sigma.getD k 0)
        (gridX res j) (gridY res i)
  let v : ℕ → ℕ → ℝ := fun i j =>
    Real.sin alpha + ∑ k ∈ Finset.range result.panels.length,
      vLoc (result.panels.getD k panelDefault) (result.sigma.getD k 0)
        (gridX res j) (gridY res i)
  ⟨fun _ j => gridX res j, fun i _ => gridY res i, u, v,
   fun i j => Real.sqrt (u i j ^ 2 + v i j ^ 2),
   fun i j => 1 - Real.sqrt (u i j ^ 2 + v i j ^ 2) ^ 2⟩

/-- The reading of the off-diagonal coefficient asserted by the claim,
following the specification's words: the closed-form source-panel velocity
(the same log/arctangent kernel the code uses for field evaluation,
`uLoc`/`vLoc`) induced at panel `pa`'s midpoint by unit source strength on
panel `pb`, projected onto panel `pa`'s outward normal
`(cos beta, sin beta)`, normalized by panel `pb`'s length. -/
def specNormalCoeff (pa pb : Panel) : ℝ :=
  (uLoc pb 1 pa.xc pa.yc * Real.cos pa.beta
    + vLoc pb 1 pa.xc pa.yc * Real.sin pa.beta) / pb.length

/-- The closed x-coordinates produced inside `create_panels` (line 37). -/
def closedX (xs ys : List ℝ) : List ℝ := (closeContour xs ys).1

/-- The closed y-coordinates produced inside `create_panels` (line 38). -/
def closedY (xs ys : List ℝ) : List ℝ := (closeContour xs ys).2

/-- The interpolation knots of `create_panels` (lines 40-42). -/
def tKnots (xs ys : List ℝ) : List ℝ := tParam (closedX xs ys) (closedY xs ys)

/-- The unit horizontal panel from (0,0) to (1,0). -/
def p0 : Panel := mkPanel 0 0 1 0

/-- A unit horizontal panel lifted by 1/2: its midpoint is (1/2, 1/2). -/
def pI : Panel := mkPanel 0 (1/2) 1 (1/2)

/-- Length chosen so that the mutual influence entry of two coincident
horizontal panels of this length is exactly `1/2`, making the assembled
2-by-2 influence matrix exactly singular. -/
def Lstar : ℝ := 2 * Real.sqrt (Real.exp (-(2 * Real.pi)) - 1e-12)

/-- The degenerate-geometry panel: a horizontal panel of length `Lstar`. -/
def pStar : Panel := mkPanel 0 0 Lstar 0

/-! ### Projection lemmas for `mkPanel` -/

@[simp] theorem mkPanel_x1 (a b c d : ℝ) : (mkPanel a b c d).x1 = a := rfl
@[simp] theorem mkPanel_y1 (a b c d : ℝ) : (mkPanel a b c d).y1 = b := rfl
@[simp] theorem mkPanel_x2 (a b c d : ℝ) : (mkPanel a b c d).x2 = c := rfl
@[simp] theorem mkPanel_y2 (a b c d : ℝ) : (mkPanel a b c d).y2 = d := rfl
@[simp] theorem mkPanel_xc (a b c d : ℝ) : (mkPanel a b c d).xc = (a + c) / 2 := rfl
@[simp] theorem mkPanel_yc (a b c d : ℝ) : (mkPanel a b c d).yc = (b + d) / 2 := rfl
theorem mkPanel_length (a b c d : ℝ) :
    (mkPanel a b c d).length = Real.sqrt ((c - a) ^ 2 + (d - b) ^ 2) := rfl
theorem mkPanel_theta (a b c d : ℝ) :
    (mkPanel a b c d).theta = arctan2 (d - b) (c - a) := rfl
theorem mkPanel_beta (a b c d : ℝ) :
    (mkPanel a b c d).beta = arctan2 (d - b) (c - a) + Real.pi / 2 := rfl

/-! ### Evaluation lemmas for `arctan2` -/

theorem arctan2_zero_right_pos {x : ℝ} (hx : 0 < x) : arctan2 0 x = 0 := by
  unfold arctan2
  rw [if_pos hx, zero_div, Real.arctan_zero]

theorem arctan2_zero_right_neg {x : ℝ} (hx : x < 0) : arctan2 0 x = Real.pi := by
  unfold arctan2
  rw [if_neg (by linarith), if_pos hx, if_pos le_rfl, zero_div, Real.arctan_zero, zero_add]

theorem arctan2_diag {x : ℝ} (hx : 0 < x) : arctan2 x x = Real.pi / 4 := by
  unfold arctan2
  rw [if_pos hx, div_self (ne_of_gt hx), Real.arctan_one]

theorem arctan2_antidiag {x : ℝ} (hx : 0 < x) : arctan2 x (-x) = 3 * Real.pi / 4 := by
  unfold arctan2
  rw [if_neg (by linarith), if_pos (by linarith), if_pos hx.le, div_neg,
    div_self (ne_of_gt hx), Real.arctan_neg, Real.arctan_one]
  ring

/-! ### Concrete panels used to instantiate the theorems -/

theorem p0_theta : p0.theta = 0 := by
  rw [p0, mkPanel_theta]
  norm_num [arctan2_zero_right_pos]

theorem p0_beta : p0.beta = Real.pi / 2 := by
  rw [p0, mkPanel_beta]
  norm_num [arctan2_zero_right_pos]

theorem p0_length : p0.length = 1 := by
  rw [p0, mkPanel_length]
  norm_num

theorem pI_theta : pI.theta = 0 := by
  rw [pI, mkPanel_theta]
  norm_num [arctan2_zero_right_pos]

theorem pI_beta : pI.beta = Real.pi / 2 := by
  rw [pI, mkPanel_beta]
  norm_num [arctan2_zero_right_pos]

theorem pI_xc : pI.xc = 1 / 2 := by
  rw [pI, mkPanel_xc]; norm_num

theorem pI_yc : pI.yc = 1 / 2 := by
  rw [pI, mkPanel_yc]; norm_num

theorem exp_neg_two_pi_gt : (1e-12 : ℝ) < Real.exp (-(2 * Real.pi)) := by
  have h1 : (2 : ℝ) * Real.pi < 8 := by nlinarith [Real.pi_lt_four]
  have h2 : Real.exp (2 * Real.pi) < Real.exp 8 := Real.exp_lt_exp.mpr h1
  have h3 : Real.exp 8 = Real.exp 1 ^ 8 := by
    rw [← Real.exp_nat_mul]; norm_num
  have h4 : Real.exp 1 ^ 8 < 2.7182818286 ^ 8 := by
    apply pow_lt_pow_left₀ Real.exp_one_lt_d9 (Real.exp_pos 1).le
    norm_num
  have h5 : (2.7182818286 : ℝ) ^ 8 < 1e12 := by norm_num
  have h6 : Real.exp (2 * Real.pi) < 1e12 := by linarith
  rw [show -(2 * Real.pi) = -(2 * Real.pi) from rfl, Real.exp_neg]
  rw [show (1e-12 : ℝ) = (1e12 : ℝ)⁻¹ by norm_num]
  exact inv_strictAnti₀ (Real.exp_pos _) h6

theorem Lstar_pos : 0 < Lstar := by
  have h := exp_neg_two_pi_gt
  unfold Lstar
  have : (0 : ℝ) < Real.exp (-(2 * Real.pi)) - 1e-12 := by linarith
  positivity

theorem Lstar_sq : Lstar ^ 2 = 4 * (Real.exp (-(2 * Real.pi)) - 1e-12) := by
  have h : (0 : ℝ) ≤ Real.exp (-(2 * Real.pi)) - 1e-12 := by
    have := exp_neg_two_pi_gt; linarith
  unfold Lstar
  rw [mul_pow, Real.sq_sqrt h]
  ring

theorem pStar_theta : pStar.theta = 0 := by
  rw [pStar, mkPanel_theta]
  have := Lstar_pos
  rw [show Lstar - 0 = Lstar by ring, show (0 : ℝ) - 0 = 0 by ring]
  exact arctan2_zero_right_pos this

theorem pStar_length : pStar.length = Lstar := by
  rw [pStar, mkPanel_length]
  rw [show (Lstar - 0) ^ 2 + ((0 : ℝ) - 0) ^ 2 = Lstar ^ 2 by ring]
  exact Real.sqrt_sq Lstar_pos.le

theorem horizontal_theta (L : ℝ) (hL : 0 < L) : (mkPanel 0 0 L 0).theta = 0 := by
  rw [mkPanel_theta, show L - 0 = L by ring, show (0 : ℝ) - 0 = 0 by ring]
  exact arctan2_zero_right_pos hL

theorem horizontal_length (L : ℝ) (hL : 0 < L) : (mkPanel 0 0 L 0).length = L := by
  rw [mkPanel_length, show (L - 0) ^ 2 + ((0 : ℝ) - 0) ^ 2 = L ^ 2 by ring]
  exact Real.sqrt_sq hL.le

theorem xiLoc_self_horizontal (L : ℝ) (hL : 0 < L) :
    xiLoc (mkPanel 0 0 L 0) (mkPanel 0 0 L 0) = L / 2 := by
  unfold xiLoc
  rw [horizontal_theta L hL, mkPanel_xc, mkPanel_yc, mkPanel_x1, mkPanel_y1,
    Real.cos_zero, Real.sin_zero]
  ring

theorem etaLoc_self_horizontal (L : ℝ) (hL : 0 < L) :
    etaLoc (mkPanel 0 0 L 0) (mkPanel 0 0 L 0) = 0 := by
  unfold etaLoc
  rw [horizontal_theta L hL, mkPanel_xc, mkPanel_yc, mkPanel_x1, mkPanel_y1,
    Real.cos_zero, Real.sin_zero]
  ring

/-- The mutual influence entry of two coincident horizontal panels of
length `L`: the control point sits at local coordinates `(L/2, 0)`, both
squared distances equal `(L/2)^2`, and the angle term vanishes. -/
theorem offDiag_self_horizontal (L : ℝ) (hL : 0 < L) :
    offDiag (mkPanel 0 0 L 0) (mkPanel 0 0 L 0) =
      -Real.log ((L / 2) ^ 2 + 1e-12) / (4 * Real.pi) := by
  unfold offDiag
  rw [xiLoc_self_horizontal L hL, etaLoc_self_horizontal L hL, horizontal_length L hL]
  rw [show (L / 2 - L) ^ 2 + (0 : ℝ) ^ 2 + 1e-12 = (L / 2) ^ 2 + 0 ^ 2 + 1e-12 by ring]
  have hLne : L ≠ 0 := ne_of_gt hL
  field_simp
  ring

theorem offDiag_pStar : offDiag pStar pStar = 1 / 2 := by
  have h1 : offDiag pStar pStar = -Real.log ((Lstar / 2) ^ 2 + 1e-12) / (4 * Real.pi) := by
    rw [pStar]; exact offDiag_self_horizontal Lstar Lstar_pos
  have h2 : (Lstar / 2) ^ 2 + 1e-12 = Real.exp (-(2 * Real.pi)) := by
    nlinarith [Lstar_sq]
  rw [h1, h2, Real.log_exp]
  have hpi := Real.pi_ne_zero
  field_simp
  ring

end PanelMethodAirfoil

namespace PanelMethodAirfoil

/-! ### A concrete exactly singular system -/

theorem influence_pStar_entries (i j : Fin 2) :
    influenceMatrix [pStar, pStar] i j = 1 / 2 := by
  fin_cases i <;> fin_cases j <;>
    simp [influenceMatrix, Matrix.of_apply, offDiag_pStar] <;> norm_num

theorem det_pStar : (influenceMatrix [pStar, pStar]).det = 0 := by
  rw [Matrix.det_fin_two, influence_pStar_entries, influence_pStar_entries,
    influence_pStar_entries, influence_pStar_entries]
  ring

/-! ### Claim C1 -/

/-- C1: for every panel list given to `solve_flow` and every panel index
`i`, the diagonal influence coefficient `A[i][i]` equals exactly `0.5`,
produced by the explicit `i == j` special case (lines 73-75) and therefore
independent of the panel geometry. -/
theorem solve_flow_diag_half (panels : List Panel) (i : Fin panels.length) :
    influenceMatrix panels i i = 0.5 := by
  unfold influenceMatrix
  simp

/-! ### Claim C4 -/

/-- C4 (amended): when the assembled influence matrix is exactly singular,
the linear solve raises and the bare `except: return None` (line 84) makes
`solve_flow` return `None` to the caller — a bare null, not a typed
`SingularSystemError` value, and no strength vector (zeroed or otherwise)
is returned. -/
theorem solve_flow_singular_returns_none (panels : List Panel) (alphaDeg vInf : ℝ)
    (h : (influenceMatrix panels).det = 0) :
    solve_flow panels alphaDeg vInf = none := by
  simp [solve_flow, linalgSolve, h]

/-- C4 counterexample: two coincident horizontal panels of length `Lstar`
make the assembled matrix exactly singular (`det_pStar`), and `solve_flow`
returns the untyped `None` — the caller receives no `SingularSystemError`
(no such typed value exists anywhere in the code). -/
theorem solve_flow_singular_none_cex : solve_flow [pStar, pStar] 0 1 = none := by
  unfold solve_flow linalgSolve
  split_ifs with h
  · rfl
  · exact absurd det_pStar h

/-- Witness for C4's amended theorem at a concrete singular input. -/
theorem solve_flow_singular_witness : solve_flow [pStar, pStar] 5 2 = none :=
  solve_flow_singular_returns_none [pStar, pStar] 5 2 det_pStar

end PanelMethodAirfoil

namespace PanelMethodAirfoil

/-! ### Claim C2: the off-diagonal entry versus the normal projection -/

theorem xiLoc_pI_p0 : xiLoc pI p0 = 1 / 2 := by
  unfold xiLoc
  rw [p0_theta, pI_xc, pI_yc, Real.cos_zero, Real.sin_zero,
    show p0.x1 = 0 from rfl, show p0.y1 = 0 from rfl]
  ring

theorem etaLoc_pI_p0 : etaLoc pI p0 = 1 / 2 := by
  unfold etaLoc
  rw [p0_theta, pI_xc, pI_yc, Real.cos_zero, Real.sin_zero,
    show p0.x1 = 0 from rfl, show p0.y1 = 0 from rfl]
  ring

theorem offDiag_pI_p0 :
    offDiag pI p0 = (Real.pi / 2 - Real.log (1 / 2 + 1e-12)) / (4 * Real.pi) := by
  unfold offDiag
  rw [xiLoc_pI_p0, etaLoc_pI_p0, p0_length]
  rw [show (1 / 2 - 1 : ℝ) = -(1 / 2) by norm_num]
  rw [arctan2_antidiag (by norm_num : (0 : ℝ) < 1 / 2),
    arctan2_diag (by norm_num : (0 : ℝ) < 1 / 2)]
  rw [show (-(1 / 2) : ℝ) ^ 2 + (1 / 2 : ℝ) ^ 2 + 1e-12 = 1 / 2 + 1e-12 by norm_num]
  rw [show ((1 / 2 : ℝ)) ^ 2 + (1 / 2 : ℝ) ^ 2 + 1e-12 = 1 / 2 + 1e-12 by norm_num]
  ring

theorem xLoc_p0_mid : xLoc p0 (1 / 2) (1 / 2) = 1 / 2 := by
  unfold xLoc
  rw [p0_theta, Real.cos_zero, Real.sin_zero,
    show p0.x1 = 0 from rfl, show p0.y1 = 0 from rfl]
  ring

theorem yLoc_p0_mid : yLoc p0 (1 / 2) (1 / 2) = 1 / 2 := by
  unfold yLoc
  rw [p0_theta, Real.cos_zero, Real.sin_zero,
    show p0.x1 = 0 from rfl, show p0.y1 = 0 from rfl]
  ring

theorem jTerm_p0_mid : jTerm p0 (1 / 2) (1 / 2) = 0 := by
  unfold jTerm r2sqF r1sqF
  rw [xLoc_p0_mid, yLoc_p0_mid, p0_length]
  rw [show ((1 / 2 : ℝ) - 1) ^ 2 + (1 / 2 : ℝ) ^ 2 + 1e-10 = 1 / 2 + 1e-10 by norm_num,
    show ((1 / 2 : ℝ)) ^ 2 + (1 / 2 : ℝ) ^ 2 + 1e-10 = 1 / 2 + 1e-10 by norm_num,
    div_self (by norm_num : (1 / 2 + 1e-10 : ℝ) ≠ 0), Real.log_one]
  ring

theorem iTerm_p0_mid : iTerm p0 (1 / 2) (1 / 2) = Real.pi / 2 := by
  unfold iTerm
  rw [xLoc_p0_mid, yLoc_p0_mid, p0_length]
  rw [show (1 / 2 - 1 : ℝ) = -(1 / 2) by norm_num]
  rw [arctan2_antidiag (by norm_num : (0 : ℝ) < 1 / 2),
    arctan2_diag (by norm_num : (0 : ℝ) < 1 / 2)]
  ring

theorem uLoc_p0_mid : uLoc p0 1 (1 / 2) (1 / 2) = 0 := by
  unfold uLoc
  rw [jTerm_p0_mid, iTerm_p0_mid, p0_theta, Real.cos_zero, Real.sin_zero]
  ring

theorem vLoc_p0_mid : vLoc p0 1 (1 / 2) (1 / 2) = 1 / 4 := by
  unfold vLoc
  rw [jTerm_p0_mid, iTerm_p0_mid, p0_theta, Real.cos_zero, Real.sin_zero]
  have hpi := Real.pi_ne_zero
  field_simp
  ring

theorem specNormalCoeff_pI_p0 : specNormalCoeff pI p0 = 1 / 4 := by
  unfold specNormalCoeff
  rw [pI_xc, pI_yc, pI_beta, uLoc_p0_mid, vLoc_p0_mid, p0_length,
    Real.cos_pi_div_two, Real.sin_pi_div_two]
  ring

theorem log_half_eps_gt : -(Real.pi / 2) < Real.log (1 / 2 + 1e-12) := by
  have h1 : Real.log (1 / 2 : ℝ) ≤ Real.log (1 / 2 + 1e-12) :=
    Real.log_le_log (by norm_num) (by norm_num)
  have h2 : Real.log (1 / 2 : ℝ) = -Real.log 2 := by
    rw [show (1 / 2 : ℝ) = 2⁻¹ by norm_num, Real.log_inv]
  have h3 : Real.log 2 < 0.6931471808 := Real.log_two_lt_d9
  have h4 : (3 : ℝ) < Real.pi := Real.pi_gt_three
  linarith

/-- C2 counterexample: for the concrete pair (`pI` with midpoint
(1/2, 1/2), unit horizontal panel `p0`), the off-diagonal entry assembled
by `solve_flow` differs from the claim's closed-form induced velocity
projected onto panel i's outward normal (`specNormalCoeff`): the former is
`(pi/2 - log(1/2 + 1e-12)) / (4 pi)`, the latter exactly `1/4`, and they
differ because `log(1/2 + 1e-12) > -pi/2`. -/
theorem offdiag_not_normal_projection_cex :
    influenceMatrix [pI, p0] (0 : Fin 2) (1 : Fin 2) ≠ specNormalCoeff pI p0 := by
  have hA : influenceMatrix [pI, p0] (0 : Fin 2) (1 : Fin 2) = offDiag pI p0 := by
    unfold influenceMatrix
    rw [Matrix.of_apply, if_neg (by decide)]
    rfl
  rw [hA, offDiag_pI_p0, specNormalCoeff_pI_p0]
  have hlog := log_half_eps_gt
  have hpi : (0 : ℝ) < Real.pi := Real.pi_pos
  intro h
  rw [div_eq_iff (by positivity : (4 * Real.pi) ≠ 0)] at h
  linarith

/-- C2 (amended): for distinct indices the assembled entry `A[i][j]` is
exactly the local-frame log/arctangent expression `offDiag` — a quantity
that depends on panel i only through its midpoint `(xc, yc)` and is
therefore not a projection onto panel i's outward-normal direction (second
conjunct: replacing panel i's inclination and normal angles by arbitrary
values leaves the entry unchanged). -/
theorem offdiag_formula_midpoint_only (panels : List Panel)
    (i j : Fin panels.length) (hij : i ≠ j) :
    influenceMatrix panels i j = offDiag (panels.get i) (panels.get j) ∧
    ∀ t b, offDiag ⟨(panels.get i).x1, (panels.get i).y1, (panels.get i).x2,
        (panels.get i).y2, (panels.get i).xc, (panels.get i).yc,
        (panels.get i).length, t, b⟩ (panels.get j) =
      offDiag (panels.get i) (panels.get j) := by
  constructor
  · unfold influenceMatrix
    rw [Matrix.of_apply, if_neg hij]
  · intro t b
    rfl

/-- Witness for C2's amended theorem at the concrete pair `(pI, p0)`. -/
theorem offdiag_formula_witness :
    influenceMatrix [pI, p0] (0 : Fin 2) (1 : Fin 2) = offDiag pI p0 := by
  have h := (offdiag_formula_midpoint_only [pI, p0] (0 : Fin 2) (1 : Fin 2) (by decide)).1
  simpa using h

end PanelMethodAirfoil

namespace PanelMethodAirfoil

/-! ### Claim C6: surface evaluation -/

theorem getD_ofFn {n : ℕ} (f : Fin n → ℝ) (i : Fin n) :
    (List.ofFn f).getD i 0 = f i := by
  simp [List.getD_eq_getElem?_getD, List.getElem?_ofFn, List.ofFnNthVal, i.isLt]

/-- C6: whenever `solve_flow` returns a result, the returned panel list is
the input list in the same order, the strength and pressure arrays have one
entry per panel in that same order, and each `Cp[i]` equals
`1 - (V_t[i]/V_inf)^2` where `V_t[i]` is the tangential freestream
component at panel `i` plus `sigma[i]/2` (lines 86-92). -/
theorem solve_flow_surface_eval (panels : List Panel) (aDeg vInf : ℝ)
    (st : SolveResult) (h : solve_flow panels aDeg vInf = some st) :
    st.panels = panels ∧
    st.sigma.length = panels.length ∧
    st.Cp.length = panels.length ∧
    ∀ i : Fin panels.length,
      st.Cp.getD i 0 =
        1 - ((vtInfPanel (panels.get i) (radians aDeg) vInf
          + st.sigma.getD i 0 / 2) / vInf) ^ 2 := by
  unfold solve_flow at h
  rcases hls : linalgSolve (influenceMatrix panels) (rhs panels (radians aDeg) vInf)
    with _ | sigma
  · rw [hls] at h
    exact Option.noConfusion h
  · rw [hls, Option.map_some'] at h
    obtain rfl := (Option.some.inj h).symm
    refine ⟨rfl, by simp, by simp, fun i => ?_⟩
    rw [show (SolveResult.mk (List.ofFn sigma) _ _).Cp = _ from rfl,
      show (SolveResult.mk (List.ofFn sigma) _ _).sigma = List.ofFn sigma from rfl]
    rw [getD_ofFn, getD_ofFn]

/-- The concrete solved state: one unit horizontal panel, zero angle of
attack, freestream speed 2.  The right-hand side vanishes (`beta = pi/2`),
so the solved strength is exactly 0 and `Cp = 1 - ((-2)/2)^2 = 0`. -/
theorem radians_zero : radians 0 = 0 := by
  unfold radians; ring

theorem det_p0 : (influenceMatrix [p0]).det = 0.5 := by
  rw [Matrix.det_fin_one]
  unfold influenceMatrix
  rw [Matrix.of_apply, if_pos rfl]

theorem rhs_p0 : rhs [p0] (radians 0) 2 = 0 := by
  funext i
  unfold rhs
  rw [radians_zero, Real.cos_zero, Real.sin_zero]
  have hb : ([p0].get i).beta = Real.pi / 2 := by
    have hi : [p0].get i = p0 := by
      rcases i with ⟨iv, hiv⟩
      have h1 : iv = 0 := Nat.lt_one_iff.mp (by simpa using hiv)
      subst h1
      rfl
    rw [hi, p0_beta]
  rw [hb, Real.cos_pi_div_two]
  simp

theorem vtInf_p0 : vtInfPanel p0 (radians 0) 2 = -2 := by
  unfold vtInfPanel
  rw [radians_zero, p0_beta, Real.cos_zero, Real.sin_zero, Real.sin_pi_div_two,
    Real.cos_pi_div_two]
  ring

theorem solve_p0 : solve_flow [p0] 0 2 = some ⟨[0], [0], [p0]⟩ := by
  have hdet : (influenceMatrix [p0]).det ≠ 0 := by rw [det_p0]; norm_num
  unfold solve_flow linalgSolve
  rw [rhs_p0, Matrix.mulVec_zero, if_neg hdet, Option.map_some']
  simp [List.ofFn_succ, vtInf_p0]

/-- Witness for C6's theorem at the concrete solved state. -/
theorem solve_flow_surface_eval_witness :
    ∃ st, solve_flow [p0] 0 2 = some st ∧ st.panels = [p0] ∧
      st.Cp.getD 0 0 =
        1 - ((vtInfPanel p0 (radians 0) 2 + st.sigma.getD 0 0 / 2) / 2) ^ 2 := by
  refine ⟨⟨[0], [0], [p0]⟩, solve_p0, ?_, ?_⟩
  · rfl
  · have h := (solve_flow_surface_eval [p0] 0 2 ⟨[0], [0], [p0]⟩ solve_p0).2.2.2
      ⟨0, by decide⟩
    simpa using h

end PanelMethodAirfoil

namespace PanelMethodAirfoil

/-! ### Claim C7: the flow-field query -/

theorem uLoc_zero_strength (p : Panel) (px py : ℝ) : uLoc p 0 px py = 0 := by
  unfold uLoc; ring

theorem vLoc_zero_strength (p : Panel) (px py : ℝ) : vLoc p 0 px py = 0 := by
  unfold vLoc; ring

theorem ff_p0_UV :
    (compute_flow_field ⟨[0], [0], [p0]⟩ 0 2).U 0 0 = 1 ∧
    (compute_flow_field ⟨[0], [0], [p0]⟩ 0 2).V 0 0 = 0 := by
  constructor <;>
    simp [compute_flow_field, radians_zero, uLoc_zero_strength, vLoc_zero_strength,
      Finset.sum_range_one, Real.cos_zero, Real.sin_zero]

theorem ff_p0_vMag : (compute_flow_field ⟨[0], [0], [p0]⟩ 0 2).vMag 0 0 = 1 := by
  have h := ff_p0_UV
  show Real.sqrt ((compute_flow_field ⟨[0], [0], [p0]⟩ 0 2).U 0 0 ^ 2 +
    (compute_flow_field ⟨[0], [0], [p0]⟩ 0 2).V 0 0 ^ 2) = 1
  rw [h.1, h.2]
  norm_num

theorem ff_p0_Cp : (compute_flow_field ⟨[0], [0], [p0]⟩ 0 2).Cp 0 0 = 0 := by
  show 1 - (compute_flow_field ⟨[0], [0], [p0]⟩ 0 2).vMag 0 0 ^ 2 = 0
  rw [ff_p0_vMag]
  norm_num

/-- C7 counterexample: solve one unit horizontal panel at `alpha = 0` with
freestream speed `V_inf = 2` (the strength solves to exactly 0), then query
the flow field.  The field speed at grid point (0,0) is exactly 1 and the
returned `Cp` is `1 - 1^2 = 0`, which differs from the claimed
`1 - (V/V_inf)^2 = 1 - (1/2)^2 = 3/4`: `compute_flow_field` normalizes
`Cp` as if the freestream speed were 1 and ignores the solved state's
`V_inf` (which the returned dict does not even carry). -/
theorem flow_field_cp_vinf_cex :
    ∃ st, solve_flow [p0] 0 2 = some st ∧
      (compute_flow_field st 0 2).vMag 0 0 = 1 ∧
      (compute_flow_field st 0 2).Cp 0 0 ≠
        1 - ((compute_flow_field st 0 2).vMag 0 0 / 2) ^ 2 := by
  refine ⟨⟨[0], [0], [p0]⟩, solve_p0, ff_p0_vMag, ?_⟩
  rw [ff_p0_Cp, ff_p0_vMag]
  norm_num

/-- C7 (amended): `compute_flow_field` evaluates over the fixed rectangular
grid `x ∈ [-0.5, 1.5]`, `y ∈ [-0.6, 0.6]` with caller-chosen resolution
only (the bounds are hardcoded, lines 99-100); at every grid point it
superposes a unit-speed freestream `(cos alpha, sin alpha)` with the
panel-induced velocities and returns the velocity components, the speed
magnitude, and `Cp = 1 - V_mag^2` — normalized as if the freestream speed
were 1, not by the solved state's `V_inf` (line 120). -/
theorem flow_field_fixed_grid_eval (st : SolveResult) (aDeg : ℝ) (res i j : ℕ) :
    (compute_flow_field st aDeg res).X i j = linspace (-0.5) 1.5 res j ∧
    (compute_flow_field st aDeg res).Y i j = linspace (-0.6) 0.6 res i ∧
    (compute_flow_field st aDeg res).U i j =
      Real.cos (radians aDeg) + ∑ k ∈ Finset.range st.panels.length,
        uLoc (st.panels.getD k panelDefault) (st.sigma.getD k 0)
          (gridX res j) (gridY res i) ∧
    (compute_flow_field st aDeg res).V i j =
      Real.sin (radians aDeg) + ∑ k ∈ Finset.range st.panels.length,
        vLoc (st.panels.getD k panelDefault) (st.sigma.getD k 0)
          (gridX res j) (gridY res i) ∧
    (compute_flow_field st aDeg res).vMag i j =
      Real.sqrt ((compute_flow_field st aDeg res).U i j ^ 2 +
        (compute_flow_field st aDeg res).V i j ^ 2) ∧
    (compute_flow_field st aDeg res).Cp i j =
      1 - (compute_flow_field st aDeg res).vMag i j ^ 2 :=
  ⟨rfl, rfl, rfl, rfl, rfl, rfl⟩

/-! ### Claim C8: the logarithm epsilon guard -/

/-- C8: at every evaluation point — in particular at a point coincident
with a panel midpoint or lying anywhere on a panel, where the raw squared
distances can vanish — both epsilon-guarded squared distances of
`compute_flow_field` are at least `1e-10`, their ratio is strictly
positive, and the `J` term is the logarithm of that strictly positive
ratio: `log 0` is never evaluated, so the velocity and `Cp` fields are
well-defined real numbers everywhere. -/
theorem flow_field_log_guard (p : Panel) (px py : ℝ) :
    1e-10 ≤ r1sqF p px py + 1e-10 ∧ 1e-10 ≤ r2sqF p px py + 1e-10 ∧
    0 < (r2sqF p px py + 1e-10) / (r1sqF p px py + 1e-10) ∧
    jTerm p px py = 0.5 * Real.log ((r2sqF p px py + 1e-10) / (r1sqF p px py + 1e-10)) := by
  have h1 : 0 ≤ r1sqF p px py := by unfold r1sqF; positivity
  have h2 : 0 ≤ r2sqF p px py := by unfold r2sqF; positivity
  exact ⟨by linarith, by linarith, div_pos (by linarith) (by linarith), rfl⟩

end PanelMethodAirfoil

namespace PanelMethodAirfoil

/-! ### Claim C3: failure mode on a two-point contour -/

/-- C3 (amended): on every two-point contour — whether or not the closure
append triggers — `create_panels` reaches scipy's cubic-interpolant
constructor with at most 3 points and fails with the untyped builtin
`ValueError`; no typed `GeometryError` exists anywhere in the code, and
`create_panels` performs no point-count or extent validation of its own. -/
theorem create_panels_two_point_valueError (interp : List ℝ → List ℝ → ℝ → ℝ)
    (numPanels : ℕ) (a b c d : ℝ) :
    create_panels interp numPanels [a, b] [c, d] = Except.error PyExc.valueError := by
  unfold create_panels closeContour
  split_ifs with h <;> simp_all

/-- C3 counterexample: the two-point contour `x = [0, 1]`, `y = [0, 0]`
makes `create_panels` fail with the untyped `ValueError` raised by scipy —
not with the typed `GeometryError` the claim requires (and which is a
distinct error altogether). -/
theorem create_panels_two_point_cex :
    create_panels boundaryInterp 160 [0, 1] [0, 0] = Except.error PyExc.valueError ∧
    PyExc.valueError ≠ PyExc.geometryError := by
  constructor
  · unfold create_panels closeContour
    split_ifs with h <;> simp_all
  · decide

/-! ### Claim C5: no degenerate-panel check -/

/-- C5 (amended): the panel-building step performs no length check at all:
for every resampled point set it returns exactly one panel per consecutive
pair of points, including panels whose length is below any numerical
epsilon (even exactly zero); no `DegeneratePanelError` exists in the code. -/
theorem buildPanels_no_length_check (xp yp : List ℝ) (n : ℕ) :
    (buildPanels xp yp n).length = n ∧
    ∀ k, k < n → (buildPanels xp yp n).getD k panelDefault =
      mkPanel (xp.getD k 0) (yp.getD k 0) (xp.getD (k + 1) 0) (yp.getD (k + 1) 0) := by
  constructor
  · simp [buildPanels]
  · intro k hk
    unfold buildPanels
    rw [List.getD_eq_getElem?_getD, List.getElem?_map, List.getElem?_range hk]
    rfl

/-- C5 counterexample: the resampled point set `(0,0), (0,0), (1,0)`
contains a coincident consecutive pair; the panel-building step does not
fail, but returns the zero-length panel between them as its first panel
(together with one panel per remaining pair). -/
theorem buildPanels_degenerate_cex :
    (buildPanels [0, 0, 1] [0, 0, 0] 2).length = 2 ∧
    (buildPanels [0, 0, 1] [0, 0, 0] 2).getD 0 panelDefault = mkPanel 0 0 0 0 ∧
    (mkPanel 0 0 0 0).length = 0 := by
  refine ⟨?_, ?_, ?_⟩
  · simp [buildPanels]
  · unfold buildPanels
    rw [List.getD_eq_getElem?_getD, List.getElem?_map,
      List.getElem?_range (by norm_num : 0 < 2)]
    rfl
  · rw [mkPanel_length]
    norm_num

/-- Witness for C5's amended theorem at a concrete point set. -/
theorem buildPanels_no_length_check_witness :
    (buildPanels [0, 1, 2] [0, 0, 0] 2).length = 2 ∧
    (buildPanels [0, 1, 2] [0, 0, 0] 2).getD 0 panelDefault = mkPanel 0 0 1 0 := by
  refine ⟨(buildPanels_no_length_check [0, 1, 2] [0, 0, 0] 2).1, ?_⟩
  have h := (buildPanels_no_length_check [0, 1, 2] [0, 0, 0] 2).2 0 (by norm_num)
  simpa using h

end PanelMethodAirfoil

namespace PanelMethodAirfoil

/-! ### Claims C9 and C10: resampling and the panel chain -/

theorem buildPanels_length (xp yp : List ℝ) (n : ℕ) : (buildPanels xp yp n).length = n := by
  simp [buildPanels]

theorem buildPanels_getD (xp yp : List ℝ) (n k : ℕ) (hk : k < n) :
    (buildPanels xp yp n).getD k panelDefault =
      mkPanel (xp.getD k 0) (yp.getD k 0) (xp.getD (k + 1) 0) (yp.getD (k + 1) 0) := by
  unfold buildPanels
  rw [List.getD_eq_getElem?_getD, List.getElem?_map, List.getElem?_range hk]
  rfl

theorem create_panels_ok (interp : List ℝ → List ℝ → ℝ → ℝ) (n : ℕ) (xs ys : List ℝ)
    (hlen : ¬(closedX xs ys).length < 4) :
    create_panels interp n xs ys = Except.ok
      (buildPanels (resample interp (tKnots xs ys) (closedX xs ys) n)
                   (resample interp (tKnots xs ys) (closedY xs ys) n) n) := by
  unfold create_panels
  dsimp only
  rw [if_neg (show ¬(closeContour xs ys).1.length < 4 from hlen)]
  rfl

theorem create_panels_ok_elim (interp : List ℝ → List ℝ → ℝ → ℝ) (n : ℕ)
    (xs ys : List ℝ) (ps : List Panel)
    (h : create_panels interp n xs ys = Except.ok ps) :
    ps = buildPanels (resample interp (tKnots xs ys) (closedX xs ys) n)
                     (resample interp (tKnots xs ys) (closedY xs ys) n) n := by
  unfold create_panels at h
  dsimp only at h
  split_ifs at h with hl
  injection h with h'
  exact h'.symm

theorem linspace_zero_pi (n k : ℕ) : linspace 0 Real.pi (n + 1) k = k * Real.pi / n := by
  unfold linspace
  rw [Nat.add_sub_cancel]
  ring

theorem resample_length (interp : List ℝ → List ℝ → ℝ → ℝ) (t vs : List ℝ) (n : ℕ) :
    (resample interp t vs n).length = n + 1 := by
  simp [resample, cosineParams]

theorem resample_getD (interp : List ℝ → List ℝ → ℝ → ℝ) (t vs : List ℝ) (n k : ℕ)
    (hk : k ≤ n) :
    (resample interp t vs n).getD k 0 =
      interp t vs (0.5 * (1 - Real.cos (k * Real.pi / n))) := by
  unfold resample cosineParams
  rw [List.getD_eq_getElem?_getD, List.getElem?_map, List.getElem?_map,
    List.getElem?_range (by omega : k < n + 1)]
  simp [linspace_zero_pi]

theorem resample_first (interp : List ℝ → List ℝ → ℝ → ℝ) (t vs : List ℝ) (n : ℕ) :
    (resample interp t vs n).getD 0 0 = interp t vs 0 := by
  rw [resample_getD interp t vs n 0 (Nat.zero_le n)]
  norm_num

theorem resample_last (interp : List ℝ → List ℝ → ℝ → ℝ) (t vs : List ℝ) (n : ℕ)
    (hn : 1 ≤ n) :
    (resample interp t vs n).getD n 0 = interp t vs 1 := by
  rw [resample_getD interp t vs n n le_rfl]
  have hne : (n : ℝ) ≠ 0 := Nat.cast_ne_zero.mpr (by omega)
  rw [show (n : ℝ) * Real.pi / n = Real.pi from by field_simp, Real.cos_pi]
  norm_num

end PanelMethodAirfoil

namespace PanelMethodAirfoil

/-- C9 (amended): the resampling step of `create_panels` evaluates the
interpolant at exactly the `N+1` cosine-spaced parameters
`t_k = 0.5 (1 - cos (k pi / N))`, `k = 0..N` (conjuncts 1-2), and
`create_panels` builds its panels from exactly these resampled lists
(conjunct 4).  The first and last resampled points coincide provided the
interpolant is value-preserving at the endpoint parameters and the closed
contour's first and last data values are exactly equal — which holds
whenever the closure append triggered or the input was exactly closed, but
can fail for an input whose endpoints agree within `isclose` tolerance
without being equal (see the counterexample). -/
theorem resample_cosine_params (interp : List ℝ → List ℝ → ℝ → ℝ) (n : ℕ)
    (hn : 1 ≤ n) (t vs : List ℝ)
    (h0 : interp t vs 0 = vs.getD 0 0) (h1 : interp t vs 1 = vs.getLastD 0) :
    (resample interp t vs n).length = n + 1 ∧
    (∀ k, k ≤ n → (resample interp t vs n).getD k 0 =
      interp t vs (0.5 * (1 - Real.cos (k * Real.pi / n)))) ∧
    (vs.getD 0 0 = vs.getLastD 0 →
      (resample interp t vs n).getD 0 0 = (resample interp t vs n).getD n 0) ∧
    ∀ xs ys, ¬(closedX xs ys).length < 4 →
      create_panels interp n xs ys = Except.ok
        (buildPanels (resample interp (tKnots xs ys) (closedX xs ys) n)
                     (resample interp (tKnots xs ys) (closedY xs ys) n) n) := by
  refine ⟨resample_length interp t vs n, fun k hk => resample_getD interp t vs n k hk,
    ?_, fun xs ys hlen => create_panels_ok interp n xs ys hlen⟩
  intro hcl
  rw [resample_first, resample_last interp t vs n hn, h0, h1, hcl]

theorem isclose_self_zero : isclose (0 : ℝ) 0 := by
  unfold isclose; norm_num

theorem isclose_zero_tiny : isclose (0 : ℝ) 1e-9 := by
  unfold isclose
  rw [show (0 : ℝ) - 1e-9 = -(1e-9) by norm_num, abs_neg,
    abs_of_nonneg (by norm_num : (0 : ℝ) ≤ 1e-9)]
  norm_num

theorem isclose_tiny_zero : isclose (1e-9 : ℝ) 0 := by
  unfold isclose
  rw [show (1e-9 : ℝ) - 0 = 1e-9 by norm_num,
    abs_of_nonneg (by norm_num : (0 : ℝ) ≤ 1e-9), abs_zero]
  norm_num

theorem closeContour_gapX :
    closeContour [0, 1, 2, 1e-9] [0, 1, -1, 0] = ([0, 1, 2, 1e-9], [0, 1, -1, 0]) := by
  unfold closeContour
  rw [if_pos]
  exact ⟨isclose_zero_tiny, isclose_self_zero⟩

/-- C9 counterexample: the contour `x = [0, 1, 2, 1e-9]`,
`y = [0, 1, -1, 0]` has its endpoints within `isclose` tolerance but not
equal, so no closure point is appended and `create_panels` succeeds — yet
the first resampled x-coordinate is exactly `0` while the last is exactly
`1e-9`: the first and last resampled points do not coincide and the output
is not closed. -/
theorem resample_closure_cex :
    create_panels boundaryInterp 2 [0, 1, 2, 1e-9] [0, 1, -1, 0] = Except.ok
      (buildPanels
        (resample boundaryInterp (tKnots [0, 1, 2, 1e-9] [0, 1, -1, 0])
          (closedX [0, 1, 2, 1e-9] [0, 1, -1, 0]) 2)
        (resample boundaryInterp (tKnots [0, 1, 2, 1e-9] [0, 1, -1, 0])
          (closedY [0, 1, 2, 1e-9] [0, 1, -1, 0]) 2) 2) ∧
    closedX [0, 1, 2, 1e-9] [0, 1, -1, 0] = [0, 1, 2, 1e-9] ∧
    (resample boundaryInterp (tKnots [0, 1, 2, 1e-9] [0, 1, -1, 0])
      [0, 1, 2, 1e-9] 2).getD 0 0 = 0 ∧
    (resample boundaryInterp (tKnots [0, 1, 2, 1e-9] [0, 1, -1, 0])
      [0, 1, 2, 1e-9] 2).getD 2 0 = 1e-9 ∧
    ((0 : ℝ) ≠ 1e-9) := by
  have hx : closedX [0, 1, 2, 1e-9] [0, 1, -1, 0] = [0, 1, 2, 1e-9] := by
    unfold closedX; rw [closeContour_gapX]
  refine ⟨?_, hx, ?_, ?_, by norm_num⟩
  · exact create_panels_ok boundaryInterp 2 _ _ (by rw [hx]; norm_num)
  · rw [resample_first]
    norm_num [boundaryInterp]
  · rw [resample_last _ _ _ _ (by norm_num : 1 ≤ 2)]
    norm_num [boundaryInterp]

/-- Witness for C9's amended theorem at a concrete exactly-closed input. -/
theorem resample_cosine_params_witness :
    (resample boundaryInterp [0] [0, 1, 2, 0] 2).length = 2 + 1 ∧
    (resample boundaryInterp [0] [0, 1, 2, 0] 2).getD 0 0 =
      (resample boundaryInterp [0] [0, 1, 2, 0] 2).getD 2 0 := by
  have h := resample_cosine_params boundaryInterp 2 (by norm_num) [0] [0, 1, 2, 0]
    (by norm_num [boundaryInterp]) (by norm_num [boundaryInterp])
  exact ⟨h.1, h.2.2.1 (by norm_num)⟩

end PanelMethodAirfoil

namespace PanelMethodAirfoil

/-- C10 (amended): whenever `create_panels` succeeds with panel count `N`,
it returns exactly `N` panels; consecutive panels share an endpoint
exactly, and every panel's control point is the midpoint of its endpoints.
The last panel's second endpoint closes back onto the first panel's first
endpoint provided the interpolant is value-preserving at the endpoint
parameters and the closed contour's first and last data values are exactly
equal in both coordinates — automatic when the closure append triggered or
the input was exactly closed, but violable for an input whose endpoints
agree only within `isclose` tolerance (see the counterexample). -/
theorem panel_chain_invariants (interp : List ℝ → List ℝ → ℝ → ℝ)
    (xs ys : List ℝ) (n : ℕ) (ps : List Panel)
    (h : create_panels interp n xs ys = Except.ok ps) :
    ps.length = n ∧
    (∀ k, k + 1 < n →
      (ps.getD (k + 1) panelDefault).x1 = (ps.getD k panelDefault).x2 ∧
      (ps.getD (k + 1) panelDefault).y1 = (ps.getD k panelDefault).y2) ∧
    (∀ k, k < n →
      (ps.getD k panelDefault).xc =
        ((ps.getD k panelDefault).x1 + (ps.getD k panelDefault).x2) / 2 ∧
      (ps.getD k panelDefault).yc =
        ((ps.getD k panelDefault).y1 + (ps.getD k panelDefault).y2) / 2) ∧
    (1 ≤ n →
      interp (tKnots xs ys) (closedX xs ys) 0 = (closedX xs ys).getD 0 0 →
      interp (tKnots xs ys) (closedX xs ys) 1 = (closedX xs ys).getLastD 0 →
      interp (tKnots xs ys) (closedY xs ys) 0 = (closedY xs ys).getD 0 0 →
      interp (tKnots xs ys) (closedY xs ys) 1 = (closedY xs ys).getLastD 0 →
      (closedX xs ys).getD 0 0 = (closedX xs ys).getLastD 0 →
      (closedY xs ys).getD 0 0 = (closedY xs ys).getLastD 0 →
      (ps.getD (n - 1) panelDefault).x2 = (ps.getD 0 panelDefault).x1 ∧
      (ps.getD (n - 1) panelDefault).y2 = (ps.getD 0 panelDefault).y1) := by
  obtain rfl := create_panels_ok_elim interp n xs ys ps h
  refine ⟨buildPanels_length _ _ n, ?_, ?_, ?_⟩
  · intro k hk
    rw [buildPanels_getD _ _ n (k + 1) hk, buildPanels_getD _ _ n k (by omega)]
    exact ⟨rfl, rfl⟩
  · intro k hk
    rw [buildPanels_getD _ _ n k hk]
    exact ⟨rfl, rfl⟩
  · intro hn h0x h1x h0y h1y hcx hcy
    rw [buildPanels_getD _ _ n (n - 1) (by omega), buildPanels_getD _ _ n 0 (by omega)]
    constructor
    · show (resample interp (tKnots xs ys) (closedX xs ys) n).getD (n - 1 + 1) 0 =
        (resample interp (tKnots xs ys) (closedX xs ys) n).getD 0 0
      rw [show n - 1 + 1 = n from by omega,
        resample_last interp (tKnots xs ys) (closedX xs ys) n hn, resample_first,
        h0x, h1x, hcx]
    · show (resample interp (tKnots xs ys) (closedY xs ys) n).getD (n - 1 + 1) 0 =
        (resample interp (tKnots xs ys) (closedY xs ys) n).getD 0 0
      rw [show n - 1 + 1 = n from by omega,
        resample_last interp (tKnots xs ys) (closedY xs ys) n hn, resample_first,
        h0y, h1y, hcy]

theorem closeContour_gapY :
    closeContour [0, 1, 2, 0] [1e-9, 1, -1, 0] = ([0, 1, 2, 0], [1e-9, 1, -1, 0]) := by
  unfold closeContour
  rw [if_pos]
  exact ⟨isclose_self_zero, isclose_tiny_zero⟩

/-- C10 counterexample: the contour `x = [0, 1, 2, 0]`,
`y = [1e-9, 1, -1, 0]` has its endpoints within `isclose` tolerance but
not equal, so no closure point is appended and `create_panels` succeeds
with 2 panels — yet the last panel's second endpoint has `y2 = 0` while
the first panel's first endpoint has `y1 = 1e-9`: the chain does not close
back onto its starting point. -/
theorem panel_chain_closure_cex :
    create_panels boundaryInterp 2 [0, 1, 2, 0] [1e-9, 1, -1, 0] = Except.ok
      (buildPanels
        (resample boundaryInterp (tKnots [0, 1, 2, 0] [1e-9, 1, -1, 0])
          (closedX [0, 1, 2, 0] [1e-9, 1, -1, 0]) 2)
        (resample boundaryInterp (tKnots [0, 1, 2, 0] [1e-9, 1, -1, 0])
          (closedY [0, 1, 2, 0] [1e-9, 1, -1, 0]) 2) 2) ∧
    ((buildPanels
        (resample boundaryInterp (tKnots [0, 1, 2, 0] [1e-9, 1, -1, 0])
          (closedX [0, 1, 2, 0] [1e-9, 1, -1, 0]) 2)
        (resample boundaryInterp (tKnots [0, 1, 2, 0] [1e-9, 1, -1, 0])
          (closedY [0, 1, 2, 0] [1e-9, 1, -1, 0]) 2) 2).getD 1 panelDefault).y2 = 0 ∧
    ((buildPanels
        (resample boundaryInterp (tKnots [0, 1, 2, 0] [1e-9, 1, -1, 0])
          (closedX [0, 1, 2, 0] [1e-9, 1, -1, 0]) 2)
        (resample boundaryInterp (tKnots [0, 1, 2, 0] [1e-9, 1, -1, 0])
          (closedY [0, 1, 2, 0] [1e-9, 1, -1, 0]) 2) 2).getD 0 panelDefault).y1 = 1e-9 ∧
    ((0 : ℝ) ≠ 1e-9) := by
  have hx : closedX [0, 1, 2, 0] [1e-9, 1, -1, 0] = [0, 1, 2, 0] := by
    unfold closedX; rw [closeContour_gapY]
  have hy : closedY [0, 1, 2, 0] [1e-9, 1, -1, 0] = [1e-9, 1, -1, 0] := by
    unfold closedY; rw [closeContour_gapY]
  refine ⟨?_, ?_, ?_, by norm_num⟩
  · exact create_panels_ok boundaryInterp 2 _ _ (by rw [hx]; norm_num)
  · rw [buildPanels_getD _ _ 2 1 (by norm_num)]
    show (resample boundaryInterp (tKnots [0, 1, 2, 0] [1e-9, 1, -1, 0])
      (closedY [0, 1, 2, 0] [1e-9, 1, -1, 0]) 2).getD 2 0 = 0
    rw [resample_last _ _ _ _ (by norm_num : 1 ≤ 2), hy]
    norm_num [boundaryInterp]
  · rw [buildPanels_getD _ _ 2 0 (by norm_num)]
    show (resample boundaryInterp (tKnots [0, 1, 2, 0] [1e-9, 1, -1, 0])
      (closedY [0, 1, 2, 0] [1e-9, 1, -1, 0]) 2).getD 0 0 = 1e-9
    rw [resample_first, hy]
    norm_num [boundaryInterp]

theorem closeContour_closed4 :
    closeContour [0, 1, 2, 0] [0, 1, -1, 0] = ([0, 1, 2, 0], [0, 1, -1, 0]) := by
  unfold closeContour
  rw [if_pos]
  exact ⟨isclose_self_zero, isclose_self_zero⟩

/-- Witness for C10's theorem at a concrete exactly-closed four-point
contour with two panels. -/
theorem panel_chain_invariants_witness :
    ∃ ps, create_panels boundaryInterp 2 [0, 1, 2, 0] [0, 1, -1, 0] = Except.ok ps ∧
      ps.length = 2 ∧
      (ps.getD 1 panelDefault).x1 = (ps.getD 0 panelDefault).x2 ∧
      (ps.getD (2 - 1) panelDefault).x2 = (ps.getD 0 panelDefault).x1 := by
  have hx : closedX [0, 1, 2, 0] [0, 1, -1, 0] = [0, 1, 2, 0] := by
    unfold closedX; rw [closeContour_closed4]
  have hy : closedY [0, 1, 2, 0] [0, 1, -1, 0] = [0, 1, -1, 0] := by
    unfold closedY; rw [closeContour_closed4]
  have hok := create_panels_ok boundaryInterp 2 [0, 1, 2, 0] [0, 1, -1, 0]
    (by rw [hx]; norm_num)
  refine ⟨_, hok, ?_⟩
  have h := panel_chain_invariants boundaryInterp [0, 1, 2, 0] [0, 1, -1, 0] 2 _ hok
  refine ⟨h.1, (h.2.1 0 (by norm_num)).1, (h.2.2.2 (by norm_num)
    (by rw [hx]; norm_num [boundaryInterp]) (by rw [hx]; norm_num [boundaryInterp])
    (by rw [hy]; norm_num [boundaryInterp]) (by rw [hy]; norm_num [boundaryInterp])
    (by rw [hx]; rfl) (by rw [hy]; rfl)).1⟩

end PanelMethodAirfoil
